import Mathlib

/-!
Shallow embedding of the memory engine of ChatGPT-Telegram-Workers.

Sources embedded:
- src/convex/memory.ts      : hashMemory, upsertMemory, extractMemories, memoryContext
- src/convex/schema.ts      : the per-layer record schema (memoryFields)
- src/packages/lib/core/src/memory/index.ts :
    formatMemoryContext, shouldExtractMemory, mergeSystemPrompt

External collaborators (the Convex storage engine, the fetch-based providers,
the KV database, JSON.parse) are modelled as explicit parameters or explicit
state, following their interface contracts; timestamps and similarity scores
are JS numbers used only for arithmetic comparison and are modelled as Int.
-/

/-- The fixed closed set of memory layers (const layers = [...] in
src/convex/memory.ts and the MemoryLayer union type of the worker lib). -/
inductive MemoryLayer where
  | identities
  | preferences
  | experiences
  | activities
  | contexts
  | personas
deriving DecidableEq, Repr

/-- The string name of a layer, as used in hash input and JSON payloads. -/
def MemoryLayer.name : MemoryLayer → String
  | .identities => "identities"
  | .preferences => "preferences"
  | .experiences => "experiences"
  | .activities => "activities"
  | .contexts => "contexts"
  | .personas => "personas"

/-- The list form of the layer registry, in source order. -/
def layersList : List MemoryLayer :=
  [.identities, .preferences, .experiences, .activities, .contexts, .personas]

/-- One stored memory record: the memoryFields schema of src/convex/schema.ts.
float64 embedding entries are carried opaquely (modelled as Int); createdAt
and updatedAt are Date.now() values. -/
structure MemoryRecord where
  telegramUserId : String
  sourceChatId : String
  sourceMessageId : String
  text : String
  abstract : String
  tags : List String
  embedding : List Int
  hash : String
  createdAt : Int
  updatedAt : Int
deriving DecidableEq, Repr

/-- The UpsertPayload validator of src/convex/memory.ts. -/
structure UpsertPayload where
  layer : MemoryLayer
  telegramUserId : String
  sourceChatId : String
  sourceMessageId : String
  text : String
  abstract : String
  tags : List String
  embedding : List Int
  hash : String
deriving DecidableEq, Repr

/-- The result value of upsertMemory: the mutation returns either
an updated-true or an inserted-true object. -/
inductive UpsertResult where
  | inserted
  | updated
deriving DecidableEq, Repr

/-- The by_user_hash index predicate: q.eq(telegramUserId).eq(hash). -/
def matchesPair (uid h : String) (r : MemoryRecord) : Bool :=
  r.telegramUserId == uid && r.hash == h

/-- Number of records of a table carrying a given (telegramUserId, hash) pair. -/
def countPair (l : List MemoryRecord) (uid h : String) : Nat :=
  (l.filter (matchesPair uid h)).length

/-- The ctx.db.patch step of upsertMemory: only text, abstract, tags,
embedding and updatedAt are reassigned. -/
def patchRecord (r : MemoryRecord) (p : UpsertPayload) (now : Int) : MemoryRecord :=
  { r with text := p.text, abstract := p.abstract, tags := p.tags,
           embedding := p.embedding, updatedAt := now }

/-- The ctx.db.insert step of upsertMemory: a fresh record with all payload
fields and createdAt = updatedAt = now. -/
def newRecord (p : UpsertPayload) (now : Int) : MemoryRecord :=
  { telegramUserId := p.telegramUserId
    sourceChatId := p.sourceChatId
    sourceMessageId := p.sourceMessageId
    text := p.text
    abstract := p.abstract
    tags := p.tags
    embedding := p.embedding
    hash := p.hash
    createdAt := now
    updatedAt := now }

/-- The body of upsertMemory on one table: .first() on the by_user_hash index
finds the first record with the pair; if found it is patched in place,
otherwise a new record is appended (Convex insert adds a fresh document). -/
def upsertList (uid h : String) (patch : MemoryRecord → MemoryRecord)
    (fresh : MemoryRecord) : List MemoryRecord → List MemoryRecord × UpsertResult
  | [] => ([fresh], .inserted)
  | r :: rs =>
    if matchesPair uid h r then (patch r :: rs, .updated)
    else
      let (rs', res) := upsertList uid h patch fresh rs
      (r :: rs', res)

/-- The database: one collection per layer (layerToTable is a bijection onto
six tables of identical schema, so we index collections by the layer). -/
structure Db where
  tables : MemoryLayer → List MemoryRecord

/-- The upsertMemory mutation of src/convex/memory.ts. -/
def upsertMemory (db : Db) (p : UpsertPayload) (now : Int) : Db × UpsertResult :=
  let (table', res) :=
    upsertList p.telegramUserId p.hash (fun r => patchRecord r p now)
      (newRecord p now) (db.tables p.layer)
  (⟨fun l => if l = p.layer then table' else db.tables l⟩, res)

/-- The per-layer dedup invariant: in every collection, at most one record
per (telegramUserId, hash) pair. -/
def DbInv (db : Db) : Prop :=
  ∀ (l : MemoryLayer) (uid h : String), countPair (db.tables l) uid h ≤ 1

/-- String.prototype.trim: drop leading and trailing whitespace
(modelled at the character-list level of the Lean string). -/
def jsTrim (s : String) : String :=
  ⟨((s.data.dropWhile Char.isWhitespace).reverse.dropWhile Char.isWhitespace).reverse⟩

/-- String.prototype.toLowerCase (over the characters the sources feed it). -/
def jsToLower (s : String) : String :=
  ⟨s.data.map Char.toLower⟩

/-- The normalization step of hashMemory: text.trim().toLowerCase(). -/
def normalizeMemoryText (s : String) : String :=
  jsToLower (jsTrim s)

/-- The 32-bit rolling fold of hashMemory over the char codes of a string:
h = (h*31 + charCodeAt i) >>> 0, starting from 0. -/
def foldHash32 (s : String) : Nat :=
  s.data.foldl (fun h c => (h * 31 + c.toNat) % 4294967296) 0

/-- hashMemory of src/convex/memory.ts: normalize by trim+toLowerCase,
prepend the layer name and a colon, fold h = (h*31 + charCode) mod 2^32
starting from 0, and render the hash in decimal. -/
def hashMemory (layer : MemoryLayer) (text : String) : String :=
  let normalized := normalizeMemoryText text
  let input := layer.name ++ ":" ++ normalized
  toString (foldHash32 input)

/-- JS truthiness fallback on strings: a || b is b when a is the empty
string, a otherwise (item.text || item.abstract). -/
def strOr (a b : String) : String :=
  if a = "" then b else a

/-- The ExtractionPayload validator of src/convex/memory.ts. -/
structure ExtractionPayload where
  telegramUserId : String
  sourceChatId : String
  sourceMessageId : String
  text : String
  context : String
deriving DecidableEq, Repr

/-- One raw candidate item out of the provider response. JSON.parse performs
no schema validation, so the layer arrives as an arbitrary string and is
checked against the registry with layers.includes. -/
structure RawItem where
  layer : String
  text : String
  abstract : String
  tags : List String
deriving DecidableEq, Repr

/-- The shape a successfully parsed extraction response is used at:
only its items field is read, and parsed.items may be absent
(the loop iterates over parsed.items || []). -/
structure ParsedExtraction where
  items : Option (List RawItem)
deriving DecidableEq, Repr

/-- Outcome of the chat-completions fetch: a non-ok status, or an ok
response whose choices[0].message.content may be absent. -/
inductive FetchResult where
  | fail (status : Nat)
  | ok (content : Option String)
deriving DecidableEq, Repr

/-- layers.includes(item.layer) over the raw string layer. -/
def layerOfString (s : String) : Option MemoryLayer :=
  layersList.find? (fun l => l.name == s)

/-- Observable outcome of one extractMemories run: the returned value or the
thrown error message, the final database, and the texts sent to the
embedding provider in call order. -/
structure ExtractOutcome where
  result : Except String Nat
  db : Db
  embedCalls : List String

/-- The per-item loop of extractMemories: unknown layers are skipped with
continue; for accepted items the embedding is fetched on
item.text || item.abstract, the hash computed on the same string, and
upsertMemory run; inserted is incremented once per accepted item. -/
def extractLoop (embed : String → List Int) (payload : ExtractionPayload)
    (now : Int) :
    List RawItem → Db → Nat → List String → Db × Nat × List String
  | [], db, n, calls => (db, n, calls)
  | item :: rest, db, n, calls =>
    match layerOfString item.layer with
    | none => extractLoop embed payload now rest db n calls
    | some l =>
      let source := strOr item.text item.abstract
      let emb := embed source
      let h := hashMemory l source
      let db' :=
        (upsertMemory db
          { layer := l
            telegramUserId := payload.telegramUserId
            sourceChatId := payload.sourceChatId
            sourceMessageId := payload.sourceMessageId
            text := item.text
            abstract := item.abstract
            tags := item.tags
            embedding := emb
            hash := h } now).1
      extractLoop embed payload now rest db' (n + 1) (calls ++ [source])

/-- The extractMemories action of src/convex/memory.ts. The fetch outcome
and JSON.parse are passed in as the external collaborators they are:
parse c = none models a JSON.parse exception on content c. Embedding and
upsert are assumed to succeed for each accepted item (they are total
functions here), matching the claims' proviso. -/
def extractMemories (apiKey : Option String) (resp : FetchResult)
    (parse : String → Option ParsedExtraction) (embed : String → List Int)
    (payload : ExtractionPayload) (now : Int) (db : Db) : ExtractOutcome :=
  match apiKey with
  | none => ⟨.error "OPENROUTER_API_KEY is not set", db, []⟩
  | some _ =>
    match resp with
    | .fail status =>
      ⟨.error ("OpenRouter extraction failed: " ++ toString status), db, []⟩
    | .ok content =>
      match content with
      | none => ⟨.ok 0, db, []⟩
      | some c =>
        if c = "" then ⟨.ok 0, db, []⟩
        else
          match parse c with
          | none => ⟨.error "Failed to parse memory extraction response", db, []⟩
          | some parsed =>
            let (db', n, calls) :=
              extractLoop embed payload now (parsed.items.getD []) db 0 []
            ⟨.ok n, db', calls⟩

/-- One vector-search match as consumed by memoryContext: the matched record
(ctx.db.get resolves the id) with its similarity score. -/
structure ScoredMatch where
  record : MemoryRecord
  score : Int
deriving DecidableEq, Repr

/-- One element of the memoryContext result and of the worker-side
MemoryContextItem interface. -/
structure ContextItem where
  layer : MemoryLayer
  text : String
  abstract : String
  tags : List String
  score : Int
deriving DecidableEq, Repr

/-- The ContextPayload validator of src/convex/memory.ts. -/
structure ContextPayload where
  telegramUserId : String
  query : String
deriving DecidableEq, Repr

/-- The comparator of items.sort((a, b) => b.score - a.score): a comes
before b exactly when its score is at least b's. -/
def scoreDesc (a b : ContextItem) : Bool :=
  b.score ≤ a.score

/-- The memoryContext query of src/convex/memory.ts. The embedding provider
and the vector-search primitive (taking the layer table, the query vector,
the limit and the owner filter) are explicit collaborators. The query is
embedded once; every layer is searched with limit 3 filtered to the owner;
matches are tagged with their layer, flattened, and sorted by descending
score (Array.prototype.sort is stable; the comparator orders by score
only). -/
def memoryContext
    (embed : String → List Int)
    (vsearch : MemoryLayer → List Int → Nat → String → List ScoredMatch)
    (payload : ContextPayload) : List ContextItem :=
  let queryEmbedding := embed payload.query
  let results := layersList.map (fun layer =>
    (vsearch layer queryEmbedding 3 payload.telegramUserId).map (fun m =>
      { layer := layer
        text := m.record.text
        abstract := m.record.abstract
        tags := m.record.tags
        score := m.score }))
  results.flatten.mergeSort scoreDesc

/-- One live entry of the worker KV database: the stored integer (timestamps
are stored in decimal and re-read with parseInt, which round-trips) and the
absolute expiry instant derived from expirationTtl. -/
structure KVEntry where
  value : Int
  expiresAt : Int
deriving DecidableEq, Repr

/-- The KV database state, keys to live entries. -/
def KVStore := String → Option KVEntry

/-- DATABASE.get at an instant: an entry past its expiry reads as absent. -/
def kvGet (s : KVStore) (k : String) (now : Int) : Option Int :=
  match s k with
  | some e => if now < e.expiresAt then some e.value else none
  | none => none

/-- DATABASE.put with expirationTtl seconds from now. -/
def kvPut (s : KVStore) (k : String) (v : Int) (ttl : Int) (now : Int) : KVStore :=
  fun k' => if k' = k then some ⟨v, now + ttl⟩ else s k'

/-- shouldExtractMemory of src/packages/lib/core/src/memory/index.ts.
interval is ENV.MEMORY_EXTRACTION_MIN_INTERVAL_SECONDS, now is
Math.floor(Date.now() / 1000); a missing (or expired, or unreadable) value
parses as 0 via parseInt(value || chr48, 10) with a catch to 0. -/
def shouldExtractMemory (interval : Int) (store : KVStore) (telegramUserId : String)
    (now : Int) : Bool × KVStore :=
  if interval ≤ 0 then (true, store)
  else
    let key := "memory_extract:last:" ++ telegramUserId
    let last := (kvGet store key now).getD 0
    if now - last < interval then (false, store)
    else (true, kvPut store key now interval now)

/-- One line of the formatted memory context:
a dash, the layer in parentheses, abstract || text, and the tag list in
brackets when non-empty. -/
def formatLine (item : ContextItem) : String :=
  let tags := if item.tags.length ≠ 0
    then " [" ++ String.intercalate ", " item.tags ++ "]" else ""
  let content := strOr item.abstract item.text
  "- (" ++ item.layer.name ++ ") " ++ content ++ tags

/-- The unconstrained rendering built by formatMemoryContext before the
length check: the heading line then one line per item. -/
def renderMemoryContext (items : List ContextItem) : String :=
  "User Memory Context:\n" ++ String.intercalate "\n" (items.map formatLine)

/-- formatMemoryContext of src/packages/lib/core/src/memory/index.ts.
maxChars is ENV.MEMORY_CONTEXT_MAX_CHARS; 0 is falsy and disables
truncation; otherwise an over-long rendering is cut by slice(0, maxChars). -/
def formatMemoryContext (maxChars : Nat) (items : List ContextItem) : String :=
  if items.length = 0 then ""
  else
    let content := renderMemoryContext items
    if maxChars = 0 ∨ content.length ≤ maxChars then content
    else ⟨content.data.take maxChars⟩

/-- mergeSystemPrompt of src/packages/lib/core/src/memory/index.ts.
basePrompt may be null (none); both null and the empty string are falsy. -/
def mergeSystemPrompt (basePrompt : Option String) (memoryPrompt : String) :
    Option String :=
  if memoryPrompt = "" then basePrompt
  else
    match basePrompt with
    | none => some memoryPrompt
    | some b =>
      if b = "" then some memoryPrompt
      else some (b ++ "\n\n" ++ memoryPrompt)

/-- The empty database, for concrete instantiations. -/
def dbEmpty : Db := ⟨fun _ => []⟩

/-- A concrete upsert payload, for concrete instantiations. -/
def samplePayload : UpsertPayload :=
  { layer := .identities
    telegramUserId := "42"
    sourceChatId := "chat1"
    sourceMessageId := "msg1"
    text := "Loves Coffee"
    abstract := "loves coffee"
    tags := ["drink"]
    embedding := [1, 2, 3]
    hash := "776993385" }

/-- A database holding exactly one record, the one samplePayload writes at
time 0, for concrete instantiations of the updated path. -/
def dbOne : Db := (upsertMemory dbEmpty samplePayload 0).1

/-- A concrete retrieved item, for concrete instantiations. -/
def sampleItem : ContextItem :=
  { layer := .preferences
    text := "User loves strong coffee in the morning"
    abstract := "loves coffee"
    tags := ["drink", "habit"]
    score := 95 }

/-- The empty KV database, for concrete instantiations. -/
def kvEmpty : KVStore := fun _ => none

/-- The store right after an allowed trigger for owner u at time 1000 with
interval 60, for concrete instantiations. -/
def kvAfterAllow : KVStore :=
  kvPut kvEmpty ("memory_extract:last:" ++ "u") 1000 60 1000

/-- Is the candidate's layer one of the six known layers. -/
def knownLayer (item : RawItem) : Bool :=
  (layerOfString item.layer).isSome

/-- The write one accepted candidate performs: the upsertMemory run of the
loop body, on the embedding and hash of item.text || item.abstract; a
candidate with an unknown layer writes nothing. -/
def applyItem (payload : ExtractionPayload) (embed : String → List Int)
    (now : Int) (db : Db) (item : RawItem) : Db :=
  match layerOfString item.layer with
  | none => db
  | some l =>
    let source := strOr item.text item.abstract
    (upsertMemory db
      { layer := l
        telegramUserId := payload.telegramUserId
        sourceChatId := payload.sourceChatId
        sourceMessageId := payload.sourceMessageId
        text := item.text
        abstract := item.abstract
        tags := item.tags
        embedding := embed source
        hash := hashMemory l source } now).1

/-- A parse collaborator that always fails, for concrete instantiations. -/
def parseNone : String → Option ParsedExtraction := fun _ => none

/-- An embedding collaborator returning a constant vector, for concrete
instantiations. -/
def embedZero : String → List Int := fun _ => [0]

/-- A concrete extraction payload, for concrete instantiations. -/
def sampleExtraction : ExtractionPayload :=
  { telegramUserId := "42"
    sourceChatId := "chat1"
    sourceMessageId := "msg1"
    text := "hello"
    context := "ctx" }

/-- A parse collaborator producing an object without an items field, for
concrete instantiations. -/
def parseNoItems : String → Option ParsedExtraction := fun _ => some ⟨none⟩

/-- The valid candidate of the spec example. -/
def itemA : RawItem := { layer := "identities", text := "A", abstract := "A", tags := [] }

/-- The unknown-layer candidate of the spec example. -/
def itemB : RawItem := { layer := "bogus", text := "B", abstract := "B", tags := [] }

/-- A parse collaborator returning the spec example items, for concrete
instantiations. -/
def parseAB : String → Option ParsedExtraction := fun _ => some ⟨some [itemA, itemB]⟩

/-- A concrete stored record around one text, for concrete instantiations. -/
def mkRec (t : String) : MemoryRecord :=
  { telegramUserId := "42"
    sourceChatId := "chat1"
    sourceMessageId := "msg1"
    text := t
    abstract := t
    tags := []
    embedding := [0]
    hash := "h"
    createdAt := 0
    updatedAt := 0 }

/-- A vector-search collaborator honoring its limit argument, returning the
per-layer mock scores of the spec example (identities 90, preferences 95,
experiences 20), for concrete instantiations. -/
def vsearchSample : MemoryLayer → List Int → Nat → String → List ScoredMatch :=
  fun layer _ n _ =>
    (match layer with
      | .identities => [ScoredMatch.mk (mkRec "reads") 90]
      | .preferences => [ScoredMatch.mk (mkRec "coffee") 95]
      | .experiences => [ScoredMatch.mk (mkRec "paris") 20]
      | _ => []).take n

/-! Helper lemmas about the upsert engine. -/

theorem countPair_cons (r : MemoryRecord) (l : List MemoryRecord) (u h : String) :
    countPair (r :: l) u h
      = (if matchesPair u h r then 1 else 0) + countPair l u h := by
  simp only [countPair, List.filter_cons]
  split <;> simp [Nat.add_comm]

theorem countPair_append (l1 l2 : List MemoryRecord) (u h : String) :
    countPair (l1 ++ l2) u h = countPair l1 u h + countPair l2 u h := by
  simp [countPair, List.filter_append]

theorem countPair_eq_zero (l : List MemoryRecord) (u h : String) :
    countPair l u h = 0 ↔ ∀ r ∈ l, matchesPair u h r = false := by
  simp [countPair, List.length_eq_zero, List.filter_eq_nil_iff]

theorem matchesPair_patchRecord (u h : String) (r : MemoryRecord)
    (p : UpsertPayload) (now : Int) :
    matchesPair u h (patchRecord r p now) = matchesPair u h r := rfl

theorem matchesPair_newRecord (u h : String) (p : UpsertPayload) (now : Int) :
    matchesPair u h (newRecord p now) = (p.telegramUserId == u && p.hash == h) := rfl

theorem upsertList_eq (uid h : String) (patch : MemoryRecord → MemoryRecord)
    (fresh : MemoryRecord) (l : List MemoryRecord) :
    ((∀ r ∈ l, matchesPair uid h r = false)
      ∧ upsertList uid h patch fresh l = (l ++ [fresh], .inserted))
    ∨ (∃ l1 r l2, l = l1 ++ r :: l2
        ∧ (∀ x ∈ l1, matchesPair uid h x = false)
        ∧ matchesPair uid h r = true
        ∧ upsertList uid h patch fresh l = (l1 ++ patch r :: l2, .updated)) := by
  induction l with
  | nil => exact Or.inl ⟨by simp, rfl⟩
  | cons r rs ih =>
    by_cases hr : matchesPair uid h r = true
    · refine Or.inr ⟨[], r, rs, rfl, by simp, hr, ?_⟩
      simp [upsertList, hr]
    · have hr' : matchesPair uid h r = false := by simpa using hr
      rcases ih with ⟨hall, heq⟩ | ⟨l1, x, l2, hl, hall, hx, heq⟩
      · refine Or.inl ⟨?_, ?_⟩
        · intro y hy
          rcases List.mem_cons.mp hy with hy | hy
          · exact hy ▸ hr'
          · exact hall y hy
        · simp [upsertList, hr', heq]
      · refine Or.inr ⟨r :: l1, x, l2, by simp [hl], ?_, hx, ?_⟩
        · intro y hy
          rcases List.mem_cons.mp hy with hy | hy
          · exact hy ▸ hr'
          · exact hall y hy
        · simp [upsertList, hr', heq]

theorem upsertMemory_tables (db : Db) (p : UpsertPayload) (now : Int)
    (l : MemoryLayer) :
    (upsertMemory db p now).1.tables l
      = if l = p.layer
        then (upsertList p.telegramUserId p.hash (fun r => patchRecord r p now)
          (newRecord p now) (db.tables p.layer)).1
        else db.tables l := rfl

theorem upsertMemory_snd (db : Db) (p : UpsertPayload) (now : Int) :
    (upsertMemory db p now).2
      = (upsertList p.telegramUserId p.hash (fun r => patchRecord r p now)
          (newRecord p now) (db.tables p.layer)).2 := rfl

theorem upsertMemory_inserted_iff (db : Db) (p : UpsertPayload) (now : Int) :
    (upsertMemory db p now).2 = .inserted
      ↔ countPair (db.tables p.layer) p.telegramUserId p.hash = 0 := by
  rw [upsertMemory_snd, countPair_eq_zero]
  rcases upsertList_eq p.telegramUserId p.hash (fun r => patchRecord r p now)
      (newRecord p now) (db.tables p.layer) with ⟨hall, heq⟩ | ⟨l1, x, l2, hl, hall, hx, heq⟩
  · rw [heq]
    simpa using hall
  · rw [heq]
    constructor
    · intro hcon
      exact absurd hcon (by simp)
    · intro hall2
      have hfx := hall2 x (by rw [hl]; simp)
      rw [hx] at hfx
      cases hfx

theorem countPair_newRecord (p : UpsertPayload) (now : Int) (u' h' : String) :
    countPair [newRecord p now] u' h'
      = if p.telegramUserId = u' ∧ p.hash = h' then 1 else 0 := by
  by_cases h1 : p.telegramUserId = u' <;> by_cases h2 : p.hash = h' <;>
    simp [countPair, matchesPair, newRecord, h1, h2]

theorem upsertMemory_count_inserted (db : Db) (p : UpsertPayload) (now : Int)
    (h : (upsertMemory db p now).2 = .inserted) (u' h' : String) :
    countPair ((upsertMemory db p now).1.tables p.layer) u' h'
      = countPair (db.tables p.layer) u' h'
        + (if p.telegramUserId = u' ∧ p.hash = h' then 1 else 0) := by
  rw [upsertMemory_tables, if_pos rfl]
  rcases upsertList_eq p.telegramUserId p.hash (fun r => patchRecord r p now)
      (newRecord p now) (db.tables p.layer) with ⟨hall, heq⟩ | ⟨l1, x, l2, hl, hall, hx, heq⟩
  · rw [heq]
    simp [countPair_append, countPair_newRecord]
  · rw [upsertMemory_snd, heq] at h
    exact absurd h (by simp)

theorem upsertMemory_count_updated (db : Db) (p : UpsertPayload) (now : Int)
    (h : (upsertMemory db p now).2 = .updated) (u' h' : String) :
    countPair ((upsertMemory db p now).1.tables p.layer) u' h'
      = countPair (db.tables p.layer) u' h' := by
  rw [upsertMemory_tables, if_pos rfl]
  rcases upsertList_eq p.telegramUserId p.hash (fun r => patchRecord r p now)
      (newRecord p now) (db.tables p.layer) with ⟨hall, heq⟩ | ⟨l1, x, l2, hl, hall, hx, heq⟩
  · rw [upsertMemory_snd, heq] at h
    exact absurd h (by simp)
  · rw [heq, hl]
    simp [countPair_append, countPair_cons, matchesPair_patchRecord]

theorem upsertMemory_inserted_shape (db : Db) (p : UpsertPayload) (now : Int)
    (h : (upsertMemory db p now).2 = .inserted) :
    (upsertMemory db p now).1.tables p.layer
      = db.tables p.layer ++ [newRecord p now] := by
  rw [upsertMemory_tables, if_pos rfl]
  rcases upsertList_eq p.telegramUserId p.hash (fun r => patchRecord r p now)
      (newRecord p now) (db.tables p.layer) with ⟨hall, heq⟩ | ⟨l1, x, l2, hl, hall, hx, heq⟩
  · rw [heq]
  · rw [upsertMemory_snd, heq] at h
    exact absurd h (by simp)

theorem upsertMemory_updated_shape (db : Db) (p : UpsertPayload) (now : Int)
    (h : (upsertMemory db p now).2 = .updated) :
    ∃ l1 x l2, db.tables p.layer = l1 ++ x :: l2
      ∧ (∀ y ∈ l1, matchesPair p.telegramUserId p.hash y = false)
      ∧ matchesPair p.telegramUserId p.hash x = true
      ∧ (upsertMemory db p now).1.tables p.layer
          = l1 ++ patchRecord x p now :: l2 := by
  rcases upsertList_eq p.telegramUserId p.hash (fun r => patchRecord r p now)
      (newRecord p now) (db.tables p.layer) with ⟨hall, heq⟩ | ⟨l1, x, l2, hl, hall, hx, heq⟩
  · rw [upsertMemory_snd, heq] at h
    exact absurd h (by simp)
  · refine ⟨l1, x, l2, hl, hall, hx, ?_⟩
    rw [upsertMemory_tables, if_pos rfl, heq]

theorem upsertMemory_preserves_inv (db : Db) (p : UpsertPayload) (now : Int)
    (hinv : DbInv db) : DbInv (upsertMemory db p now).1 := by
  intro l u' h'
  by_cases hl : l = p.layer
  · subst hl
    cases hres : (upsertMemory db p now).2 with
    | inserted =>
      rw [upsertMemory_count_inserted db p now hres]
      by_cases hm : p.telegramUserId = u' ∧ p.hash = h'
      · obtain ⟨h1, h2⟩ := hm
        rw [if_pos ⟨h1, h2⟩, ← h1, ← h2,
          (upsertMemory_inserted_iff db p now).mp hres]
      · rw [if_neg hm]
        simpa using hinv p.layer u' h'
    | updated =>
      rw [upsertMemory_count_updated db p now hres]
      exact hinv p.layer u' h'
  · rw [upsertMemory_tables, if_neg hl]
    exact hinv l u' h'

/-- Claim C1: on a database satisfying the per-layer dedup invariant,
upsertMemory preserves the invariant (at most one record per
(telegramUserId, hash) pair in each collection); it returns inserted,
appending a fresh record with createdAt = updatedAt = now, exactly when no
record with the pair exists, and otherwise patches the first existing record
in place and returns updated; calling it twice with identical arguments
leaves exactly one record with the pair, the second call reporting
updated. -/
theorem upsertMemory_dedup_unique (db : Db) (p : UpsertPayload) (t1 t2 : Int)
    (hinv : DbInv db) :
    DbInv (upsertMemory db p t1).1
    ∧ ((upsertMemory db p t1).2 = .inserted
        ↔ countPair (db.tables p.layer) p.telegramUserId p.hash = 0)
    ∧ ((upsertMemory db p t1).2 = .inserted →
        (upsertMemory db p t1).1.tables p.layer
          = db.tables p.layer ++ [newRecord p t1]
        ∧ (newRecord p t1).createdAt = t1 ∧ (newRecord p t1).updatedAt = t1)
    ∧ ((upsertMemory db p t1).2 = .updated →
        ∃ l1 x l2, db.tables p.layer = l1 ++ x :: l2
          ∧ matchesPair p.telegramUserId p.hash x = true
          ∧ (upsertMemory db p t1).1.tables p.layer
              = l1 ++ patchRecord x p t1 :: l2)
    ∧ countPair ((upsertMemory db p t1).1.tables p.layer)
        p.telegramUserId p.hash = 1
    ∧ (upsertMemory (upsertMemory db p t1).1 p t2).2 = .updated
    ∧ countPair ((upsertMemory (upsertMemory db p t1).1 p t2).1.tables p.layer)
        p.telegramUserId p.hash = 1 := by
  have hcount1 : countPair ((upsertMemory db p t1).1.tables p.layer)
      p.telegramUserId p.hash = 1 := by
    cases hres : (upsertMemory db p t1).2 with
    | inserted =>
      rw [upsertMemory_count_inserted db p t1 hres,
        (upsertMemory_inserted_iff db p t1).mp hres, if_pos ⟨rfl, rfl⟩]
    | updated =>
      rw [upsertMemory_count_updated db p t1 hres]
      have hne : countPair (db.tables p.layer) p.telegramUserId p.hash ≠ 0 := by
        intro h0
        have hc := (upsertMemory_inserted_iff db p t1).mpr h0
        rw [hres] at hc
        simp at hc
      have hle := hinv p.layer p.telegramUserId p.hash
      omega
  have hres2 : (upsertMemory (upsertMemory db p t1).1 p t2).2 = .updated := by
    cases h2 : (upsertMemory (upsertMemory db p t1).1 p t2).2 with
    | inserted =>
      have := (upsertMemory_inserted_iff (upsertMemory db p t1).1 p t2).mp h2
      omega
    | updated => rfl
  refine ⟨upsertMemory_preserves_inv db p t1 hinv,
    upsertMemory_inserted_iff db p t1,
    fun h => ⟨upsertMemory_inserted_shape db p t1 h, rfl, rfl⟩,
    fun h => ?_, hcount1, hres2, ?_⟩
  · obtain ⟨l1, x, l2, hl, _, hx, hpatch⟩ := upsertMemory_updated_shape db p t1 h
    exact ⟨l1, x, l2, hl, hx, hpatch⟩
  · rw [upsertMemory_count_updated (upsertMemory db p t1).1 p t2 hres2]
    exact hcount1

/-- Witness for claim C1 at the empty database. -/
theorem upsertMemory_dedup_unique_witness :
    DbInv dbEmpty
    ∧ (DbInv (upsertMemory dbEmpty samplePayload 1).1
      ∧ ((upsertMemory dbEmpty samplePayload 1).2 = .inserted
          ↔ countPair (dbEmpty.tables samplePayload.layer)
              samplePayload.telegramUserId samplePayload.hash = 0)
      ∧ ((upsertMemory dbEmpty samplePayload 1).2 = .inserted →
          (upsertMemory dbEmpty samplePayload 1).1.tables samplePayload.layer
            = dbEmpty.tables samplePayload.layer ++ [newRecord samplePayload 1]
          ∧ (newRecord samplePayload 1).createdAt = 1
          ∧ (newRecord samplePayload 1).updatedAt = 1)
      ∧ ((upsertMemory dbEmpty samplePayload 1).2 = .updated →
          ∃ l1 x l2, dbEmpty.tables samplePayload.layer = l1 ++ x :: l2
            ∧ matchesPair samplePayload.telegramUserId samplePayload.hash x = true
            ∧ (upsertMemory dbEmpty samplePayload 1).1.tables samplePayload.layer
                = l1 ++ patchRecord x samplePayload 1 :: l2)
      ∧ countPair ((upsertMemory dbEmpty samplePayload 1).1.tables samplePayload.layer)
          samplePayload.telegramUserId samplePayload.hash = 1
      ∧ (upsertMemory (upsertMemory dbEmpty samplePayload 1).1 samplePayload 2).2
          = .updated
      ∧ countPair
          ((upsertMemory (upsertMemory dbEmpty samplePayload 1).1 samplePayload 2).1.tables
            samplePayload.layer)
          samplePayload.telegramUserId samplePayload.hash = 1) :=
  ⟨fun _ _ _ => Nat.zero_le 1,
    upsertMemory_dedup_unique dbEmpty samplePayload 1 2 (fun _ _ _ => Nat.zero_le 1)⟩

/-- Claim C9: on the updated path of upsertMemory, the found record is
replaced in place by its patch, which reassigns only text, abstract, tags,
embedding and updatedAt while keeping telegramUserId, sourceChatId,
sourceMessageId, hash and createdAt; every other record of the layer's
collection and every other collection is left untouched. -/
theorem upsertMemory_updated_frame (db : Db) (p : UpsertPayload) (now : Int)
    (h : (upsertMemory db p now).2 = .updated) :
    (∀ l, l ≠ p.layer → (upsertMemory db p now).1.tables l = db.tables l)
    ∧ ∃ l1 x l2, db.tables p.layer = l1 ++ x :: l2
        ∧ matchesPair p.telegramUserId p.hash x = true
        ∧ (upsertMemory db p now).1.tables p.layer
            = l1 ++ patchRecord x p now :: l2
        ∧ (patchRecord x p now).telegramUserId = x.telegramUserId
        ∧ (patchRecord x p now).sourceChatId = x.sourceChatId
        ∧ (patchRecord x p now).sourceMessageId = x.sourceMessageId
        ∧ (patchRecord x p now).hash = x.hash
        ∧ (patchRecord x p now).createdAt = x.createdAt
        ∧ (patchRecord x p now).text = p.text
        ∧ (patchRecord x p now).abstract = p.abstract
        ∧ (patchRecord x p now).tags = p.tags
        ∧ (patchRecord x p now).embedding = p.embedding
        ∧ (patchRecord x p now).updatedAt = now := by
  refine ⟨fun l hl => by rw [upsertMemory_tables, if_neg hl], ?_⟩
  obtain ⟨l1, x, l2, hl, _, hx, hpatch⟩ := upsertMemory_updated_shape db p now h
  exact ⟨l1, x, l2, hl, hx, hpatch, rfl, rfl, rfl, rfl, rfl, rfl, rfl, rfl, rfl, rfl⟩

/-- Witness for claim C9 at a database already holding the record. -/
theorem upsertMemory_updated_frame_witness :
    (upsertMemory dbOne samplePayload 5).2 = .updated
    ∧ ((∀ l, l ≠ samplePayload.layer →
        (upsertMemory dbOne samplePayload 5).1.tables l = dbOne.tables l)
      ∧ ∃ l1 x l2, dbOne.tables samplePayload.layer = l1 ++ x :: l2
          ∧ matchesPair samplePayload.telegramUserId samplePayload.hash x = true
          ∧ (upsertMemory dbOne samplePayload 5).1.tables samplePayload.layer
              = l1 ++ patchRecord x samplePayload 5 :: l2
          ∧ (patchRecord x samplePayload 5).telegramUserId = x.telegramUserId
          ∧ (patchRecord x samplePayload 5).sourceChatId = x.sourceChatId
          ∧ (patchRecord x samplePayload 5).sourceMessageId = x.sourceMessageId
          ∧ (patchRecord x samplePayload 5).hash = x.hash
          ∧ (patchRecord x samplePayload 5).createdAt = x.createdAt
          ∧ (patchRecord x samplePayload 5).text = samplePayload.text
          ∧ (patchRecord x samplePayload 5).abstract = samplePayload.abstract
          ∧ (patchRecord x samplePayload 5).tags = samplePayload.tags
          ∧ (patchRecord x samplePayload 5).embedding = samplePayload.embedding
          ∧ (patchRecord x samplePayload 5).updatedAt = 5) :=
  ⟨by decide, upsertMemory_updated_frame dbOne samplePayload 5 (by decide)⟩

/-- Claim C2: the fingerprint of (layer, text) is the decimal string of the
32-bit fold hash h = h*31 + charCode wrapped to unsigned 32-bit, starting
from 0, over the layer name, a colon and the trimmed lowercased text; hence
for every layer, texts equal after normalization give equal fingerprints,
in particular the pair of the spec example. -/
theorem hashMemory_fingerprint (layer : MemoryLayer) (t1 t2 : String)
    (h : normalizeMemoryText t1 = normalizeMemoryText t2) :
    hashMemory layer t1
      = toString ((layer.name ++ ":" ++ normalizeMemoryText t1).data.foldl
          (fun a c => (a * 31 + c.toNat) % 4294967296) 0)
    ∧ hashMemory layer t1 = hashMemory layer t2
    ∧ hashMemory .identities "Loves Coffee"
        = hashMemory .identities "  loves coffee  " := by
  refine ⟨rfl, ?_, by decide⟩
  simp [hashMemory, h]

/-- Witness for claim C2 at the spec example. -/
theorem hashMemory_fingerprint_witness :
    normalizeMemoryText "Loves Coffee" = normalizeMemoryText "  loves coffee  "
    ∧ (hashMemory .identities "Loves Coffee"
        = toString ((MemoryLayer.identities.name ++ ":"
            ++ normalizeMemoryText "Loves Coffee").data.foldl
            (fun a c => (a * 31 + c.toNat) % 4294967296) 0)
      ∧ hashMemory .identities "Loves Coffee"
          = hashMemory .identities "  loves coffee  "
      ∧ hashMemory .identities "Loves Coffee"
          = hashMemory .identities "  loves coffee  ") :=
  ⟨by decide,
    hashMemory_fingerprint .identities "Loves Coffee" "  loves coffee  " (by decide)⟩

/-- Claim C10: mergeSystemPrompt returns the base prompt unchanged when the
memory prompt is empty, returns the memory prompt when the base prompt is
null or empty and the memory prompt is not, and otherwise returns the base
prompt, a blank line, then the memory prompt; a present base prompt is
always an unaltered prefix of the returned text. -/
theorem mergeSystemPrompt_spec (b : Option String) (m : String) :
    (m = "" → mergeSystemPrompt b m = b)
    ∧ (m ≠ "" → (b = none ∨ b = some "") → mergeSystemPrompt b m = some m)
    ∧ (∀ s, m ≠ "" → b = some s → s ≠ "" →
        mergeSystemPrompt b m = some (s ++ "\n\n" ++ m))
    ∧ (∀ s r, b = some s → mergeSystemPrompt b m = some r →
        s.data <+: r.data) := by
  refine ⟨fun hm => by simp [mergeSystemPrompt, hm], ?_, ?_, ?_⟩
  · intro hm hb
    rcases hb with hb | hb <;> subst hb <;> simp [mergeSystemPrompt, hm]
  · intro s hm hb hs
    subst hb
    simp [mergeSystemPrompt, hm, hs]
  · intro s r hb hr
    subst hb
    by_cases hm : m = ""
    · simp [mergeSystemPrompt, hm] at hr
      subst hr
      exact ⟨[], by simp⟩
    · by_cases hs : s = ""
      · subst hs
        exact ⟨r.data, rfl⟩
      · simp [mergeSystemPrompt, hm, hs] at hr
        subst hr
        refine ⟨"\n\n".data ++ m.data, ?_⟩
        simp [String.data_append]

/-- Witness for claim C10 at concrete prompts. -/
theorem mergeSystemPrompt_spec_witness :
    mergeSystemPrompt (some "base") "" = some "base"
    ∧ mergeSystemPrompt none "memo" = some "memo"
    ∧ mergeSystemPrompt (some "") "memo" = some "memo"
    ∧ mergeSystemPrompt (some "base") "memo" = some ("base" ++ "\n\n" ++ "memo")
    ∧ "base".data <+: ("base" ++ "\n\n" ++ "memo").data :=
  ⟨(mergeSystemPrompt_spec (some "base") "").1 rfl,
    (mergeSystemPrompt_spec none "memo").2.1 (by decide) (Or.inl rfl),
    (mergeSystemPrompt_spec (some "") "memo").2.1 (by decide) (Or.inr rfl),
    (mergeSystemPrompt_spec (some "base") "memo").2.2.1 "base" (by decide) rfl
      (by decide),
    (mergeSystemPrompt_spec (some "base") "memo").2.2.2 "base"
      ("base" ++ "\n\n" ++ "memo") rfl
      ((mergeSystemPrompt_spec (some "base") "memo").2.2.1 "base" (by decide) rfl
        (by decide))⟩

/-- Claim C8: for a non-empty item list and a positive configured maximum,
the formatted memory context never exceeds the maximum, and when the
unconstrained rendering is longer the returned string has exactly the
maximum length and is a prefix of that rendering. -/
theorem formatMemoryContext_truncation (items : List ContextItem)
    (maxChars : Nat) (h1 : items ≠ []) (h2 : 0 < maxChars) :
    (formatMemoryContext maxChars items).length ≤ maxChars
    ∧ (maxChars < (renderMemoryContext items).length →
        (formatMemoryContext maxChars items).length = maxChars
        ∧ (formatMemoryContext maxChars items).data
            <+: (renderMemoryContext items).data) := by
  have hlen : ¬items.length = 0 := by simpa [List.length_eq_zero] using h1
  by_cases hle : (renderMemoryContext items).length ≤ maxChars
  · constructor
    · simp [formatMemoryContext, hlen, hle]
    · intro hgt
      exact absurd hgt (Nat.not_lt.mpr hle)
  · have hform : formatMemoryContext maxChars items
        = ⟨(renderMemoryContext items).data.take maxChars⟩ := by
      simp [formatMemoryContext, hlen, hle, h2.ne']
    have hlt : maxChars < (renderMemoryContext items).length := Nat.lt_of_not_le hle
    have hlength : (formatMemoryContext maxChars items).length = maxChars := by
      rw [hform]
      show ((renderMemoryContext items).data.take maxChars).length = maxChars
      rw [List.length_take]
      have : (renderMemoryContext items).data.length
          = (renderMemoryContext items).length := rfl
      omega
    refine ⟨Nat.le_of_eq hlength, fun _ => ⟨hlength, ?_⟩⟩
    rw [hform]
    exact ⟨(renderMemoryContext items).data.drop maxChars,
      List.take_append_drop maxChars (renderMemoryContext items).data⟩

/-- Witness for claim C8: one item, maximum 20, rendering longer than 20. -/
theorem formatMemoryContext_truncation_witness :
    [sampleItem] ≠ ([] : List ContextItem)
    ∧ (0 : Nat) < 20
    ∧ 20 < (renderMemoryContext [sampleItem]).length
    ∧ ((formatMemoryContext 20 [sampleItem]).length ≤ 20
      ∧ (20 < (renderMemoryContext [sampleItem]).length →
          (formatMemoryContext 20 [sampleItem]).length = 20
          ∧ (formatMemoryContext 20 [sampleItem]).data
              <+: (renderMemoryContext [sampleItem]).data)) :=
  ⟨by decide, by decide, by decide,
    formatMemoryContext_truncation [sampleItem] 20 (by decide) (by decide)⟩

/-- Claim C7 counterexample: the claim treats a missing record as infinitely
long ago, so shouldExtractMemory with a positive interval and an empty store
would have to allow the trigger; the code instead parses the missing value
as 0, so with interval 100 at time 10 the elapsed time is 10 - 0 = 10 < 100
and the call is denied. -/
theorem shouldExtractMemory_missing_denies :
    (shouldExtractMemory 100 (fun _ => none) "u" 10).1 = false := rfl

/-- Claim C7 as amended: with interval at most 0 shouldExtractMemory always
allows and never mutates; with a positive interval the last trigger time is
the stored unexpired value, a missing or expired record reading as 0 (the
epoch, hence effectively infinitely long ago whenever now is at least the
interval); if now - last is below the interval the call denies without
mutating, otherwise it records now with expiry interval seconds and allows;
after an allowed call, every call within the interval is denied. -/
theorem shouldExtractMemory_gate (interval : Int) (store : KVStore)
    (u : String) (now : Int) :
    (interval ≤ 0 → shouldExtractMemory interval store u now = (true, store))
    ∧ (0 < interval →
        (now - ((kvGet store ("memory_extract:last:" ++ u) now).getD 0) < interval →
          shouldExtractMemory interval store u now = (false, store))
        ∧ (interval ≤ now - ((kvGet store ("memory_extract:last:" ++ u) now).getD 0) →
          shouldExtractMemory interval store u now
            = (true, kvPut store ("memory_extract:last:" ++ u) now interval now))
        ∧ (kvGet store ("memory_extract:last:" ++ u) now = none → interval ≤ now →
          (shouldExtractMemory interval store u now).1 = true)
        ∧ ((shouldExtractMemory interval store u now).1 = true →
          ∀ t', now ≤ t' → t' - now < interval →
            (shouldExtractMemory interval (shouldExtractMemory interval store u now).2
              u t').1 = false)) := by
  refine ⟨fun hle => by simp [shouldExtractMemory, hle], fun hpos => ⟨?_, ?_, ?_, ?_⟩⟩
  · intro hlt
    simp [shouldExtractMemory, Int.not_le.mpr hpos, hlt]
  · intro hge
    simp [shouldExtractMemory, Int.not_le.mpr hpos, Int.not_lt.mpr hge]
  · intro hnone hnow
    have hcond : ¬ (now - ((kvGet store ("memory_extract:last:" ++ u) now).getD 0)
        < interval) := by
      rw [hnone]
      simp
      omega
    simp [shouldExtractMemory, Int.not_le.mpr hpos, hcond]
  · intro hallow t' ht1 ht2
    have hsnd : (shouldExtractMemory interval store u now).2
        = kvPut store ("memory_extract:last:" ++ u) now interval now := by
      by_cases hlt : now - ((kvGet store ("memory_extract:last:" ++ u) now).getD 0)
          < interval
      · have hfalse := hallow
        simp [shouldExtractMemory, Int.not_le.mpr hpos, hlt] at hfalse
      · simp [shouldExtractMemory, Int.not_le.mpr hpos, hlt]
    rw [hsnd]
    have hget : kvGet (kvPut store ("memory_extract:last:" ++ u) now interval now)
        ("memory_extract:last:" ++ u) t' = some now := by
      simp [kvGet, kvPut]
      omega
    simp [shouldExtractMemory, Int.not_le.mpr hpos, hget, ht2]

/-- Witness for claim C7 at interval 60: gating disabled at interval 0, an
allowed call on a missing record at time 1000, a denied unmutated call 30
seconds later, and denial throughout the 60-second window. -/
theorem shouldExtractMemory_gate_witness :
    shouldExtractMemory 0 kvEmpty "u" 5 = (true, kvEmpty)
    ∧ shouldExtractMemory 60 kvEmpty "u" 1000
        = (true, kvPut kvEmpty ("memory_extract:last:" ++ "u") 1000 60 1000)
    ∧ (shouldExtractMemory 60 kvEmpty "u" 1000).1 = true
    ∧ shouldExtractMemory 60 kvAfterAllow "u" 1030 = (false, kvAfterAllow)
    ∧ (shouldExtractMemory 60 (shouldExtractMemory 60 kvEmpty "u" 1000).2
        "u" 1030).1 = false :=
  ⟨(shouldExtractMemory_gate 0 kvEmpty "u" 5).1 (by decide),
    ((shouldExtractMemory_gate 60 kvEmpty "u" 1000).2 (by decide)).2.1 (by decide),
    ((shouldExtractMemory_gate 60 kvEmpty "u" 1000).2 (by decide)).2.2.1 rfl
      (by decide),
    ((shouldExtractMemory_gate 60 kvAfterAllow "u" 1030).2 (by decide)).1
      (by decide),
    ((shouldExtractMemory_gate 60 kvEmpty "u" 1000).2 (by decide)).2.2.2
      (((shouldExtractMemory_gate 60 kvEmpty "u" 1000).2 (by decide)).2.2.1 rfl
        (by decide))
      1030 (by decide) (by decide)⟩

theorem extractLoop_spec (embed : String → List Int)
    (payload : ExtractionPayload) (now : Int) (items : List RawItem) :
    ∀ (db : Db) (n : Nat) (calls : List String),
    extractLoop embed payload now items db n calls
      = ((items.filter knownLayer).foldl (applyItem payload embed now) db,
         n + (items.filter knownLayer).length,
         calls ++ (items.filter knownLayer).map (fun i => strOr i.text i.abstract)) := by
  induction items with
  | nil => intro db n calls; simp [extractLoop]
  | cons item rest ih =>
    intro db n calls
    cases hl : layerOfString item.layer with
    | none =>
      have hk : knownLayer item = false := by simp [knownLayer, hl]
      simp [extractLoop, hl, List.filter_cons, hk, ih]
    | some l =>
      have hk : knownLayer item = true := by simp [knownLayer, hl]
      simp [extractLoop, hl, List.filter_cons, hk, ih, applyItem, Prod.mk.injEq]
      omega

/-- Claim C4: with the api key set and a successful provider response whose
non-empty content fails to parse, extractMemories throws the parse-failure
error, leaves the database unchanged and performs no embedding call. -/
theorem extractMemories_parse_failure (k c : String)
    (parse : String → Option ParsedExtraction) (embed : String → List Int)
    (payload : ExtractionPayload) (now : Int) (db : Db)
    (hc : c ≠ "") (hp : parse c = none) :
    extractMemories (some k) (.ok (some c)) parse embed payload now db
      = ⟨.error "Failed to parse memory extraction response", db, []⟩ := by
  simp [extractMemories, hc, hp]

/-- Witness for claim C4 on unparseable content. -/
theorem extractMemories_parse_failure_witness :
    ("not json" : String) ≠ ""
    ∧ parseNone "not json" = none
    ∧ extractMemories (some "key") (.ok (some "not json")) parseNone embedZero
        sampleExtraction 7 dbEmpty
      = ⟨.error "Failed to parse memory extraction response", dbEmpty, []⟩ :=
  ⟨by decide, rfl,
    extractMemories_parse_failure "key" "not json" parseNone embedZero
      sampleExtraction 7 dbEmpty (by decide) rfl⟩

/-- Claim C5: extractMemories distinguishes provider failure from an empty
result: a non-ok status throws with the database unchanged; an ok response
with absent or empty content, or a parsed object without an items field,
returns an inserted count of 0 without throwing and without any write or
embedding call. -/
theorem extractMemories_failure_vs_empty (k c : String) (status : Nat)
    (parse : String → Option ParsedExtraction) (embed : String → List Int)
    (payload : ExtractionPayload) (now : Int) (db : Db) :
    (extractMemories (some k) (.fail status) parse embed payload now db
      = ⟨.error ("OpenRouter extraction failed: " ++ toString status), db, []⟩)
    ∧ (extractMemories (some k) (.ok none) parse embed payload now db
      = ⟨.ok 0, db, []⟩)
    ∧ (extractMemories (some k) (.ok (some "")) parse embed payload now db
      = ⟨.ok 0, db, []⟩)
    ∧ (c ≠ "" → parse c = some ⟨none⟩ →
        extractMemories (some k) (.ok (some c)) parse embed payload now db
          = ⟨.ok 0, db, []⟩) := by
  refine ⟨rfl, rfl, by simp [extractMemories], ?_⟩
  intro hc hp
  simp [extractMemories, hc, hp, extractLoop]

/-- Witness for claim C5 at a failed status and at the three empty-result
shapes. -/
theorem extractMemories_failure_vs_empty_witness :
    (extractMemories (some "key") (.fail 500) parseNone embedZero
        sampleExtraction 7 dbEmpty
      = ⟨.error ("OpenRouter extraction failed: " ++ toString 500), dbEmpty, []⟩)
    ∧ (extractMemories (some "key") (.ok none) parseNone embedZero
        sampleExtraction 7 dbEmpty
      = ⟨.ok 0, dbEmpty, []⟩)
    ∧ (extractMemories (some "key") (.ok (some "")) parseNone embedZero
        sampleExtraction 7 dbEmpty
      = ⟨.ok 0, dbEmpty, []⟩)
    ∧ (extractMemories (some "key") (.ok (some "x")) parseNoItems embedZero
        sampleExtraction 7 dbEmpty
      = ⟨.ok 0, dbEmpty, []⟩) :=
  ⟨(extractMemories_failure_vs_empty "key" "x" 500 parseNone embedZero
      sampleExtraction 7 dbEmpty).1,
    (extractMemories_failure_vs_empty "key" "x" 500 parseNone embedZero
      sampleExtraction 7 dbEmpty).2.1,
    (extractMemories_failure_vs_empty "key" "x" 500 parseNone embedZero
      sampleExtraction 7 dbEmpty).2.2.1,
    (extractMemories_failure_vs_empty "key" "x" 500 parseNoItems embedZero
      sampleExtraction 7 dbEmpty).2.2.2 (by decide) rfl⟩

/-- Claim C6: on a parsed response with an items list, every candidate whose
layer is unknown is skipped without an error, every known-layer candidate
has its text embedded and is upserted in order, and the returned count is
the number of known-layer candidates. -/
theorem extractMemories_skips_unknown (k c : String) (items : List RawItem)
    (parse : String → Option ParsedExtraction) (embed : String → List Int)
    (payload : ExtractionPayload) (now : Int) (db : Db)
    (hc : c ≠ "") (hp : parse c = some ⟨some items⟩) :
    extractMemories (some k) (.ok (some c)) parse embed payload now db
      = ⟨.ok (items.filter knownLayer).length,
         (items.filter knownLayer).foldl (applyItem payload embed now) db,
         (items.filter knownLayer).map (fun i => strOr i.text i.abstract)⟩ := by
  simp [extractMemories, hc, hp, extractLoop_spec]

/-- Witness for claim C6 at the spec example: one identities item and one
bogus item give inserted = 1, with only the identities item embedded. -/
theorem extractMemories_skips_unknown_witness :
    ("x" : String) ≠ ""
    ∧ parseAB "x" = some ⟨some [itemA, itemB]⟩
    ∧ extractMemories (some "key") (.ok (some "x")) parseAB embedZero
        sampleExtraction 7 dbEmpty
      = ⟨.ok 1,
         ([itemA, itemB].filter knownLayer).foldl
           (applyItem sampleExtraction embedZero 7) dbEmpty,
         ["A"]⟩ :=
  ⟨by decide, rfl,
    extractMemories_skips_unknown "key" "x" [itemA, itemB] parseAB embedZero
      sampleExtraction 7 dbEmpty (by decide) rfl⟩

/-- Claim C3: memoryContext embeds the query once and reuses that vector for
every layer search, draws at most the passed limit of 3 matches from each of
the six owner-filtered layer searches, tags every result item with its layer
of origin, and returns the flattened sequence sorted by descending score:
the result holds at most 18 items and every element's score is at least the
score of every later element. -/
theorem memoryContext_ranked (embed : String → List Int)
    (vsearch : MemoryLayer → List Int → Nat → String → List ScoredMatch)
    (payload : ContextPayload)
    (hcap : ∀ layer v n u, (vsearch layer v n u).length ≤ n) :
    (memoryContext embed vsearch payload).length ≤ 18
    ∧ (∀ item ∈ memoryContext embed vsearch payload,
        ∃ m ∈ vsearch item.layer (embed payload.query) 3 payload.telegramUserId,
          item = { layer := item.layer, text := m.record.text,
                   abstract := m.record.abstract, tags := m.record.tags,
                   score := m.score })
    ∧ (∀ (i j : Nat) (hi : i < (memoryContext embed vsearch payload).length)
        (hj : j < (memoryContext embed vsearch payload).length), i < j →
        ((memoryContext embed vsearch payload).get ⟨j, hj⟩).score
          ≤ ((memoryContext embed vsearch payload).get ⟨i, hi⟩).score) := by
  refine ⟨?_, ?_, ?_⟩
  · have h1 := hcap .identities (embed payload.query) 3 payload.telegramUserId
    have h2 := hcap .preferences (embed payload.query) 3 payload.telegramUserId
    have h3 := hcap .experiences (embed payload.query) 3 payload.telegramUserId
    have h4 := hcap .activities (embed payload.query) 3 payload.telegramUserId
    have h5 := hcap .contexts (embed payload.query) 3 payload.telegramUserId
    have h6 := hcap .personas (embed payload.query) 3 payload.telegramUserId
    simp only [memoryContext, List.length_mergeSort, List.length_flatten,
      layersList, List.map_cons, List.map_nil, List.length_map, List.sum_cons,
      List.sum_nil]
    omega
  · intro item hitem
    simp [memoryContext, List.mem_mergeSort, List.mem_flatten,
      List.mem_map] at hitem
    obtain ⟨layer, _hlayer, m, hm, heq⟩ := hitem
    subst heq
    exact ⟨m, hm, rfl⟩
  · have htrans : ∀ a b c : ContextItem, scoreDesc a b = true →
        scoreDesc b c = true → scoreDesc a c = true := by
      intro a b c hab hbc
      simp only [scoreDesc, decide_eq_true_eq] at *
      omega
    have htotal : ∀ a b : ContextItem, (scoreDesc a b || scoreDesc b a) = true := by
      intro a b
      simp only [scoreDesc, Bool.or_eq_true, decide_eq_true_eq]
      omega
    have hsorted : List.Pairwise (fun a b => scoreDesc a b = true)
        (memoryContext embed vsearch payload) :=
      List.sorted_mergeSort htrans htotal _
    intro i j hi hj hij
    have := List.pairwise_iff_getElem.mp hsorted i j hi hj hij
    simpa [scoreDesc, List.get_eq_getElem] using this

/-- Witness for claim C3 at the sample searches. -/
theorem memoryContext_ranked_witness :
    (∀ layer v n u, (vsearchSample layer v n u).length ≤ n)
    ∧ ((memoryContext embedZero vsearchSample ⟨"42", "coffee"⟩).length ≤ 18
      ∧ (∀ item ∈ memoryContext embedZero vsearchSample ⟨"42", "coffee"⟩,
          ∃ m ∈ vsearchSample item.layer (embedZero "coffee") 3 "42",
            item = { layer := item.layer, text := m.record.text,
                     abstract := m.record.abstract, tags := m.record.tags,
                     score := m.score })
      ∧ (∀ (i j : Nat)
          (hi : i < (memoryContext embedZero vsearchSample ⟨"42", "coffee"⟩).length)
          (hj : j < (memoryContext embedZero vsearchSample ⟨"42", "coffee"⟩).length),
          i < j →
          ((memoryContext embedZero vsearchSample ⟨"42", "coffee"⟩).get ⟨j, hj⟩).score
            ≤ ((memoryContext embedZero vsearchSample ⟨"42", "coffee"⟩).get
                ⟨i, hi⟩).score)) :=
  ⟨fun layer v n u => by
    cases layer <;> simp [vsearchSample, List.length_take],
    memoryContext_ranked embedZero vsearchSample ⟨"42", "coffee"⟩
      (fun layer v n u => by
        cases layer <;> simp [vsearchSample, List.length_take])⟩
